import Mathlib

/-!
Verification of the Cucina recipe organizer.

This file gives a shallow embedding, over `ℚ` and `String`, of the unit-conversion
and inventory-deduction engine (`src/lib/conversions.ts`), the default seed
measurement data (`src/lib/storage.ts`), and the cooking-session handlers of the
application root component (`App.tsx`), together with theorems settling the
frozen specification claims.

Modelling conventions:
- JavaScript numbers are modelled as rationals (`ℚ`); all arithmetic appearing in
  the source (`+`, `-`, `*`, `/`, `Math.min`, comparisons) is exact on the inputs
  used here, so decimal literals such as `0.001` or `236.588` denote the same
  values as in the source.
- `Array.prototype.sort(comparator)` with the source's boolean-preference
  comparator (return `-1` when the first element matches the required unit, `1`
  when the second does, `0` otherwise) is modelled as the stable merge sort
  `List.mergeSort` under the ordering `le a b := (comparator a b ≤ 0)`:
  JavaScript engines implement `sort` as a stable merge sort, which takes the
  left element whenever `le` holds, exactly as `List.mergeSort` does.
- `string | null` values are modelled as `Option String`; fallible results
  (`number | null`) as `Option ℚ`.
-/

namespace Cucina

/-- Embeds `MeasurementConversion` from `types.ts`: a directed conversion edge. -/
structure MeasurementConversion where
  toMeasurementId : String
  factor : ℚ
deriving DecidableEq

/-- Embeds `Measurement` from `types.ts`. -/
structure Measurement where
  id : String
  name : String
  conversions : List MeasurementConversion
deriving DecidableEq

/-- Embeds `InventoryItem` from `types.ts` (one inventory lot). -/
structure InventoryItem where
  userId : String
  ingredientId : String
  measurementId : String
  quantity : ℚ
deriving DecidableEq

/-- Embeds `convertMeasurement` from `src/lib/conversions.ts`: identity when the
unit ids coincide, otherwise a direct-edge lookup in the source measurement's
edge list; `none` is the "no conversion path" sentinel (`null` in the source). -/
def convertMeasurement (fromMeasurementId toMeasurementId : String) (quantity : ℚ)
    (measurements : List Measurement) : Option ℚ :=
  if fromMeasurementId = toMeasurementId then
    some quantity
  else
    match measurements.find? (fun m => m.id == fromMeasurementId) with
    | none => none
    | some fromMeasurement =>
      match fromMeasurement.conversions.find? (fun c => c.toMeasurementId == toMeasurementId) with
      | none => none
      | some directConversion => some (quantity * directConversion.factor)

/-- Embeds `getTotalInventoryInUnit` from `src/lib/conversions.ts`: filters the
inventory by ingredient and folds the convertible lots into a running total,
skipping lots for which `convertMeasurement` returns the sentinel.  (The source
declares the inventory parameter with the structural subtype of `InventoryItem`
that omits `userId`; every call site passes full `InventoryItem` records, which
is how it is embedded here.) -/
def getTotalInventoryInUnit (ingredientId targetMeasurementId : String)
    (inventory : List InventoryItem) (measurements : List Measurement) : ℚ :=
  (inventory.filter (fun item => item.ingredientId == ingredientId)).foldl
    (fun total item =>
      match convertMeasurement item.measurementId targetMeasurementId item.quantity measurements with
      | some converted => total + converted
      | none => total)
    0

/-- Embeds the result record of `hasEnoughInventory` (the optional
`convertedFrom` field is never set by the source and is omitted). -/
structure SufficiencyResult where
  hasEnough : Bool
  available : ℚ
deriving DecidableEq

/-- Embeds `hasEnoughInventory` from `src/lib/conversions.ts`. -/
def hasEnoughInventory (ingredientId requiredMeasurementId : String) (requiredQuantity : ℚ)
    (inventory : List InventoryItem) (measurements : List Measurement) : SufficiencyResult :=
  let totalAvailable :=
    getTotalInventoryInUnit ingredientId requiredMeasurementId inventory measurements
  { hasEnough := decide (totalAvailable ≥ requiredQuantity), available := totalAvailable }

/-- Embeds one entry of the `deducted` ledger of `deductFromInventory`. -/
structure DeductionEntry where
  measurementId : String
  quantity : ℚ
deriving DecidableEq

/-- State carried through the lot loop of `deductFromInventory`:
`remainingToDeduct`, the working copy `updatedInventory` (lots scheduled for
removal are marked with quantity `-1`, as in the source), and the ledger. -/
structure DeductState where
  remainingToDeduct : ℚ
  inv : List InventoryItem
  deducted : List DeductionEntry
deriving DecidableEq

/-- Embeds the comparator passed to `relevantItems.sort` in `deductFromInventory`
as a boolean ordering: the comparator returns a non-positive value on `(a, b)`
exactly when `a` matches the required unit or `b` does not. -/
def lotPreference (requiredMeasurementId : String) (a b : Nat × InventoryItem) : Bool :=
  (a.2.measurementId == requiredMeasurementId) || !(b.2.measurementId == requiredMeasurementId)

/-- Embeds `updatedInventory.map((item, index) => ...).filter(...)` of
`deductFromInventory`: the relevant lots of the given user and ingredient,
paired with their index in the inventory array. -/
def relevantLots (ingredientId : String) (inventory : List InventoryItem)
    (userId : String) : List (Nat × InventoryItem) :=
  inventory.enum.filter (fun p => p.2.userId == userId && p.2.ingredientId == ingredientId)

/-- Embeds `relevantItems.sort(...)` of `deductFromInventory` (see the module
comment for the sort model). -/
def sortedLots (ingredientId requiredMeasurementId : String) (inventory : List InventoryItem)
    (userId : String) : List (Nat × InventoryItem) :=
  (relevantLots ingredientId inventory userId).mergeSort (lotPreference requiredMeasurementId)

/-- Embeds one iteration of the `for (const { item, index } of sortedItems)` loop
of `deductFromInventory`.  The leading `remaining ≤ 0` test models the `break`:
once the remaining requirement is non-positive the loop body never runs again,
so breaking and skipping every later iteration produce the same state. -/
def deductLoopStep (requiredMeasurementId : String) (measurements : List Measurement)
    (st : DeductState) (p : Nat × InventoryItem) : DeductState :=
  if st.remainingToDeduct ≤ 0 then st
  else
    match convertMeasurement requiredMeasurementId p.2.measurementId
        st.remainingToDeduct measurements with
    | none => st
    | some amountInItemUnit =>
      let toDeduct := min p.2.quantity amountInItemUnit
      let newQuantity := p.2.quantity - toDeduct
      let updatedItem : InventoryItem :=
        if newQuantity > 0.001 then { p.2 with quantity := newQuantity }
        else { p.2 with quantity := -1 }
      { remainingToDeduct :=
          match convertMeasurement p.2.measurementId requiredMeasurementId
              toDeduct measurements with
          | some deductedInRequiredUnit => st.remainingToDeduct - deductedInRequiredUnit
          | none => st.remainingToDeduct
        inv := st.inv.set p.1 updatedItem
        deducted := st.deducted ++ [{ measurementId := p.2.measurementId, quantity := toDeduct }] }

/-- The state of `deductFromInventory` after the lot loop has run, before the
final filter removing the lots marked with quantity `-1`. -/
def deductFinalState (ingredientId requiredMeasurementId : String) (requiredQuantity : ℚ)
    (inventory : List InventoryItem) (measurements : List Measurement)
    (userId : String) : DeductState :=
  (sortedLots ingredientId requiredMeasurementId inventory userId).foldl
    (deductLoopStep requiredMeasurementId measurements)
    { remainingToDeduct := requiredQuantity, inv := inventory, deducted := [] }

/-- Embeds `deductFromInventory` from `src/lib/conversions.ts`: returns the
updated inventory (with the lots marked for removal filtered out) and the
deduction ledger. -/
def deductFromInventory (ingredientId requiredMeasurementId : String) (requiredQuantity : ℚ)
    (inventory : List InventoryItem) (measurements : List Measurement)
    (userId : String) : List InventoryItem × List DeductionEntry :=
  let final := deductFinalState ingredientId requiredMeasurementId requiredQuantity
    inventory measurements userId
  (final.inv.filter (fun item => decide (item.quantity ≠ -1)), final.deducted)

/-- Embeds `defaultMeasurements` from `src/lib/storage.ts`: the seeded unit
graph with its directed conversion edges (each direction authored explicitly)
and the countable units with no conversions. -/
def defaultMeasurements : List Measurement :=
  [ { id := "1", name := "cup",
      conversions :=
        [ { toMeasurementId := "2", factor := 16 },
          { toMeasurementId := "3", factor := 48 },
          { toMeasurementId := "4", factor := 8 },
          { toMeasurementId := "5", factor := 0.5 },
          { toMeasurementId := "6", factor := 0.25 },
          { toMeasurementId := "7", factor := 0.0625 },
          { toMeasurementId := "8", factor := 0.236588 },
          { toMeasurementId := "9", factor := 236.588 } ] },
    { id := "2", name := "tablespoon",
      conversions :=
        [ { toMeasurementId := "1", factor := 0.0625 },
          { toMeasurementId := "3", factor := 3 },
          { toMeasurementId := "4", factor := 0.5 },
          { toMeasurementId := "5", factor := 0.03125 },
          { toMeasurementId := "6", factor := 0.015625 },
          { toMeasurementId := "7", factor := 0.00390625 },
          { toMeasurementId := "8", factor := 0.0147868 },
          { toMeasurementId := "9", factor := 14.7868 } ] },
    { id := "3", name := "teaspoon",
      conversions :=
        [ { toMeasurementId := "1", factor := 0.0208333 },
          { toMeasurementId := "2", factor := 0.333333 },
          { toMeasurementId := "4", factor := 0.166667 },
          { toMeasurementId := "5", factor := 0.0104167 },
          { toMeasurementId := "6", factor := 0.00520833 },
          { toMeasurementId := "7", factor := 0.00130208 },
          { toMeasurementId := "8", factor := 0.00492892 },
          { toMeasurementId := "9", factor := 4.92892 } ] },
    { id := "4", name := "fluid ounce",
      conversions :=
        [ { toMeasurementId := "1", factor := 0.125 },
          { toMeasurementId := "2", factor := 2 },
          { toMeasurementId := "3", factor := 6 },
          { toMeasurementId := "5", factor := 0.0625 },
          { toMeasurementId := "6", factor := 0.03125 },
          { toMeasurementId := "7", factor := 0.0078125 },
          { toMeasurementId := "8", factor := 0.0295735 },
          { toMeasurementId := "9", factor := 29.5735 } ] },
    { id := "5", name := "pint",
      conversions :=
        [ { toMeasurementId := "1", factor := 2 },
          { toMeasurementId := "2", factor := 32 },
          { toMeasurementId := "3", factor := 96 },
          { toMeasurementId := "4", factor := 16 },
          { toMeasurementId := "6", factor := 0.5 },
          { toMeasurementId := "7", factor := 0.125 },
          { toMeasurementId := "8", factor := 0.473176 },
          { toMeasurementId := "9", factor := 473.176 } ] },
    { id := "6", name := "quart",
      conversions :=
        [ { toMeasurementId := "1", factor := 4 },
          { toMeasurementId := "2", factor := 64 },
          { toMeasurementId := "3", factor := 192 },
          { toMeasurementId := "4", factor := 32 },
          { toMeasurementId := "5", factor := 2 },
          { toMeasurementId := "7", factor := 0.25 },
          { toMeasurementId := "8", factor := 0.946353 },
          { toMeasurementId := "9", factor := 946.353 } ] },
    { id := "7", name := "gallon",
      conversions :=
        [ { toMeasurementId := "1", factor := 16 },
          { toMeasurementId := "2", factor := 256 },
          { toMeasurementId := "3", factor := 768 },
          { toMeasurementId := "4", factor := 128 },
          { toMeasurementId := "5", factor := 8 },
          { toMeasurementId := "6", factor := 4 },
          { toMeasurementId := "8", factor := 3.78541 },
          { toMeasurementId := "9", factor := 3785.41 } ] },
    { id := "8", name := "liter",
      conversions :=
        [ { toMeasurementId := "9", factor := 1000 },
          { toMeasurementId := "1", factor := 4.22675 },
          { toMeasurementId := "2", factor := 67.628 },
          { toMeasurementId := "3", factor := 202.884 },
          { toMeasurementId := "4", factor := 33.814 },
          { toMeasurementId := "5", factor := 2.11338 },
          { toMeasurementId := "6", factor := 1.05669 },
          { toMeasurementId := "7", factor := 0.264172 } ] },
    { id := "9", name := "milliliter",
      conversions :=
        [ { toMeasurementId := "8", factor := 0.001 },
          { toMeasurementId := "1", factor := 0.00422675 },
          { toMeasurementId := "2", factor := 0.067628 },
          { toMeasurementId := "3", factor := 0.202884 },
          { toMeasurementId := "4", factor := 0.033814 },
          { toMeasurementId := "5", factor := 0.00211338 },
          { toMeasurementId := "6", factor := 0.00105669 },
          { toMeasurementId := "7", factor := 0.000264172 } ] },
    { id := "10", name := "ounce",
      conversions :=
        [ { toMeasurementId := "12", factor := 0.0625 },
          { toMeasurementId := "11", factor := 28.3495 },
          { toMeasurementId := "13", factor := 0.0283495 },
          { toMeasurementId := "14", factor := 28349.5 } ] },
    { id := "12", name := "pound",
      conversions :=
        [ { toMeasurementId := "10", factor := 16 },
          { toMeasurementId := "11", factor := 453.592 },
          { toMeasurementId := "13", factor := 0.453592 },
          { toMeasurementId := "14", factor := 453592 } ] },
    { id := "14", name := "milligram",
      conversions :=
        [ { toMeasurementId := "11", factor := 0.001 },
          { toMeasurementId := "13", factor := 0.000001 },
          { toMeasurementId := "10", factor := 0.000035274 },
          { toMeasurementId := "12", factor := 0.0000022046 } ] },
    { id := "11", name := "gram",
      conversions :=
        [ { toMeasurementId := "14", factor := 1000 },
          { toMeasurementId := "13", factor := 0.001 },
          { toMeasurementId := "10", factor := 0.035274 },
          { toMeasurementId := "12", factor := 0.00220462 } ] },
    { id := "13", name := "kilogram",
      conversions :=
        [ { toMeasurementId := "14", factor := 1000000 },
          { toMeasurementId := "11", factor := 1000 },
          { toMeasurementId := "10", factor := 35.274 },
          { toMeasurementId := "12", factor := 2.20462 } ] },
    { id := "15", name := "piece", conversions := [] },
    { id := "16", name := "slice", conversions := [] },
    { id := "17", name := "clove", conversions := [] },
    { id := "18", name := "bunch", conversions := [] },
    { id := "19", name := "can", conversions := [] },
    { id := "20", name := "package", conversions := [] },
    { id := "21", name := "handful", conversions := [] },
    { id := "22", name := "pinch", conversions := [] },
    { id := "23", name := "dash", conversions := [] },
    { id := "24", name := "sprig", conversions := [] },
    { id := "25", name := "leaf", conversions := [] } ]

/-! ### Stable sorting by a boolean preference

The comparator of `deductFromInventory` only distinguishes "matches the required
unit" from "does not"; sorting stably by it therefore partitions the list into
the matching elements followed by the rest, each half in its original order. -/

/-- A list that is pairwise ordered by the preference relation consists of the
elements satisfying `p` followed by the elements that do not. -/
theorem filter_append_filter_not_of_pairwise {α : Type _} (p : α → Bool) :
    ∀ l : List α, l.Pairwise (fun a b => (p a || !p b) = true) →
      l.filter p ++ l.filter (fun a => !p a) = l := by
  intro l h
  induction l with
  | nil => simp
  | cons a t ih =>
    rcases List.pairwise_cons.mp h with ⟨ha, ht⟩
    by_cases hpa : p a = true
    · have hna : (!p a) = false := by simp [hpa]
      simp only [List.filter_cons, hpa, hna, if_true, if_false, cond_true, cond_false]
      simpa using congrArg (List.cons a) (ih ht)
    · have hpa' : p a = false := by simpa using hpa
      have hall : ∀ b ∈ t, p b = false := by
        intro b hb
        have hab := ha b hb
        rw [hpa'] at hab
        simpa using hab
      have h1 : (a :: t).filter p = [] := by
        rw [List.filter_eq_nil_iff]
        intro b hb
        rcases List.mem_cons.mp hb with rfl | hb'
        · simp [hpa']
        · simp [hall b hb']
      have h2 : (a :: t).filter (fun x => !p x) = a :: t := by
        rw [List.filter_eq_self]
        intro b hb
        rcases List.mem_cons.mp hb with rfl | hb'
        · simp [hpa']
        · simp [hall b hb']
      rw [h1, h2, List.nil_append]

/-- Merge sort under the preference ordering derived from the comparator is the
stable partition: the elements satisfying `p` in their original order, followed
by the others in their original order. -/
theorem mergeSort_preference_partition {α : Type _} (p : α → Bool) (l : List α) :
    l.mergeSort (fun a b => p a || !p b) =
      l.filter p ++ l.filter (fun a => !p a) := by
  have trans : ∀ a b c : α, (p a || !p b) → (p b || !p c) → (p a || !p c) := by
    intro a b c
    cases hpa : p a <;> cases hpb : p b <;> cases hpc : p c <;> simp
  have total : ∀ a b : α, (p a || !p b) || (p b || !p a) := by
    intro a b
    cases p a <;> cases p b <;> simp
  have hperm := List.mergeSort_perm l (fun a b => p a || !p b)
  have hsorted := List.sorted_mergeSort trans total l
  have hsubp : List.Sublist (l.filter p) (l.mergeSort (fun a b => p a || !p b)) := by
    refine List.sublist_mergeSort trans total ?_ (List.filter_sublist l)
    refine List.pairwise_of_forall_mem_list ?_
    intro a ha b _
    have hpa := (List.mem_filter.mp ha).2
    simp [hpa]
  have hsubn : List.Sublist (l.filter (fun a => !p a))
      (l.mergeSort (fun a b => p a || !p b)) := by
    refine List.sublist_mergeSort trans total ?_ (List.filter_sublist l)
    refine List.pairwise_of_forall_mem_list ?_
    intro a _ b hb
    have hpb := (List.mem_filter.mp hb).2
    simp only [Bool.not_eq_true'] at hpb
    simp [hpb]
  have heqp : (l.mergeSort (fun a b => p a || !p b)).filter p = l.filter p := by
    have hsub2 : List.Sublist (l.filter p)
        ((l.mergeSort (fun a b => p a || !p b)).filter p) := by
      have := hsubp.filter p
      rwa [List.filter_eq_self.mpr (fun a ha => (List.mem_filter.mp ha).2)] at this
    have hlen : ((l.mergeSort (fun a b => p a || !p b)).filter p).length =
        (l.filter p).length := (hperm.filter p).length_eq
    exact (hsub2.eq_of_length hlen.symm).symm
  have heqn : (l.mergeSort (fun a b => p a || !p b)).filter (fun a => !p a) =
      l.filter (fun a => !p a) := by
    have hsub2 : List.Sublist (l.filter (fun a => !p a))
        ((l.mergeSort (fun a b => p a || !p b)).filter (fun a => !p a)) := by
      have := hsubn.filter (fun a => !p a)
      rwa [List.filter_eq_self.mpr (fun a ha => (List.mem_filter.mp ha).2)] at this
    have hlen : ((l.mergeSort (fun a b => p a || !p b)).filter (fun a => !p a)).length =
        (l.filter (fun a => !p a)).length := (hperm.filter (fun a => !p a)).length_eq
    exact (hsub2.eq_of_length hlen.symm).symm
  calc l.mergeSort (fun a b => p a || !p b)
      = (l.mergeSort (fun a b => p a || !p b)).filter p ++
          (l.mergeSort (fun a b => p a || !p b)).filter (fun a => !p a) :=
        (filter_append_filter_not_of_pairwise p _ hsorted).symm
    _ = l.filter p ++ l.filter (fun a => !p a) := by rw [heqp, heqn]

/-- The candidate lots of `deductFromInventory` are processed exact-unit lots
first, then the convertible rest, each block keeping its original order. -/
theorem sortedLots_eq_partition (ingredientId requiredMeasurementId : String)
    (inventory : List InventoryItem) (userId : String) :
    sortedLots ingredientId requiredMeasurementId inventory userId =
      (relevantLots ingredientId inventory userId).filter
          (fun x => x.2.measurementId == requiredMeasurementId) ++
        (relevantLots ingredientId inventory userId).filter
          (fun x => !(x.2.measurementId == requiredMeasurementId)) :=
  mergeSort_preference_partition
    (fun x : Nat × InventoryItem => x.2.measurementId == requiredMeasurementId)
    (relevantLots ingredientId inventory userId)

/-- Restates the loop state of `deductFromInventory` with the sorted candidate
list replaced by its stable-partition normal form, so that concrete instances
can be evaluated without unfolding the merge sort. -/
theorem deductFinalState_eq (ingredientId requiredMeasurementId : String) (requiredQuantity : ℚ)
    (inventory : List InventoryItem) (measurements : List Measurement) (userId : String) :
    deductFinalState ingredientId requiredMeasurementId requiredQuantity
        inventory measurements userId =
      ((relevantLots ingredientId inventory userId).filter
            (fun x => x.2.measurementId == requiredMeasurementId) ++
          (relevantLots ingredientId inventory userId).filter
            (fun x => !(x.2.measurementId == requiredMeasurementId))).foldl
        (deductLoopStep requiredMeasurementId measurements)
        { remainingToDeduct := requiredQuantity, inv := inventory, deducted := [] } := by
  unfold deductFinalState
  rw [sortedLots_eq_partition]

/-- C1: the lots of the given user and ingredient are processed with every lot
whose unit equals the required unit before every lot whose unit differs, each
of the two priority classes keeping its original relative order from the input
inventory; in particular, with lots of 1 cup (unit `"1"`) and 500 ml
(unit `"9"`) of one ingredient and a requirement of 0.5 cup, the cup lot is
depleted to 0.5 and the ml lot is untouched. -/
theorem deduction_preference_order :
    (∀ (ingredientId requiredMeasurementId userId : String) (inventory : List InventoryItem),
      sortedLots ingredientId requiredMeasurementId inventory userId =
        (relevantLots ingredientId inventory userId).filter
            (fun x => x.2.measurementId == requiredMeasurementId) ++
          (relevantLots ingredientId inventory userId).filter
            (fun x => !(x.2.measurementId == requiredMeasurementId))) ∧
    deductFromInventory "78" "1" 0.5
        [ { userId := "u", ingredientId := "78", measurementId := "1", quantity := 1 },
          { userId := "u", ingredientId := "78", measurementId := "9", quantity := 500 } ]
        defaultMeasurements "u" =
      ( [ { userId := "u", ingredientId := "78", measurementId := "1", quantity := 0.5 },
          { userId := "u", ingredientId := "78", measurementId := "9", quantity := 500 } ],
        [ { measurementId := "1", quantity := 0.5 } ] ) := by
  constructor
  · intro ingredientId requiredMeasurementId userId inventory
    exact sortedLots_eq_partition ingredientId requiredMeasurementId inventory userId
  · norm_num [deductFromInventory, deductFinalState_eq, relevantLots, deductLoopStep,
      convertMeasurement, defaultMeasurements, List.enum, List.enumFrom,
      List.filter_cons, List.foldl_cons]
    simp
    norm_num [deductLoopStep]

/-- Rewrites the conversion-or-skip fold of `getTotalInventoryInUnit` as a sum,
with lots lacking a conversion path contributing `0`. -/
theorem foldl_convert_eq_add_sum (targetMeasurementId : String)
    (measurements : List Measurement) :
    ∀ (l : List InventoryItem) (init : ℚ),
      l.foldl
          (fun total item =>
            match convertMeasurement item.measurementId targetMeasurementId
                item.quantity measurements with
            | some converted => total + converted
            | none => total)
          init =
        init + (l.map (fun item =>
          (convertMeasurement item.measurementId targetMeasurementId
            item.quantity measurements).getD 0)).sum := by
  intro l
  induction l with
  | nil => intro init; simp
  | cons a t ih =>
    intro init
    rw [List.foldl_cons, ih, List.map_cons, List.sum_cons]
    cases h : convertMeasurement a.measurementId targetMeasurementId a.quantity measurements with
    | none => simp [h, add_assoc]
    | some c => simp [h, add_assoc]

/-- C7: `convertMeasurement` is the identity when the two unit ids coincide
(also for ids absent from the measurement list), returns `quantity * factor`
exactly when the source measurement is found and carries a direct edge to the
target, and otherwise returns the no-conversion-path sentinel — so no
transitive search and no reverse-edge inference happens even when the inverse
edge exists elsewhere in the graph. -/
theorem convert_direct_edge_only :
    (∀ (u : String) (q : ℚ) (ms : List Measurement),
      convertMeasurement u u q ms = some q) ∧
    (∀ (f t : String) (q : ℚ) (ms : List Measurement) (m : Measurement)
        (c : MeasurementConversion),
      f ≠ t → ms.find? (fun x => x.id == f) = some m →
      m.conversions.find? (fun x => x.toMeasurementId == t) = some c →
      convertMeasurement f t q ms = some (q * c.factor)) ∧
    (∀ (f t : String) (q : ℚ) (ms : List Measurement),
      f ≠ t → (∀ m ∈ ms, m.id = f → ∀ c ∈ m.conversions, c.toMeasurementId ≠ t) →
      convertMeasurement f t q ms = none) := by
  refine ⟨fun u q ms => by simp [convertMeasurement], ?_, ?_⟩
  · intro f t q ms m c hft hfind hedge
    unfold convertMeasurement
    rw [if_neg hft, hfind]
    dsimp only
    rw [hedge]
  · intro f t q ms hft hnoedge
    unfold convertMeasurement
    rw [if_neg hft]
    cases hfind : ms.find? (fun x => x.id == f) with
    | none => rfl
    | some m =>
      have hm : m ∈ ms := List.mem_of_find?_eq_some hfind
      have hid : m.id = f := by
        have := List.find?_some hfind
        simpa using this
      have hnone : m.conversions.find? (fun x => x.toMeasurementId == t) = none := by
        rw [List.find?_eq_none]
        intro c hc
        simpa using hnoedge m hm hid c hc
      dsimp only
      rw [hnone]

/-- Closed instance of `convert_direct_edge_only` on the seeded measurement
graph: one cup is 16 tablespoons via the direct edge, and countable pieces
have no path to cups. -/
theorem convert_direct_edge_only_witness :
    convertMeasurement "1" "2" 1 defaultMeasurements = some 16 ∧
    convertMeasurement "15" "1" 5 defaultMeasurements = none := by
  constructor
  · rw [convert_direct_edge_only.2.1 "1" "2" 1 defaultMeasurements _ _ (by decide) rfl rfl]
    norm_num
  · exact convert_direct_edge_only.2.2 "15" "1" 5 defaultMeasurements (by decide) (by decide)

/-- C8: `getTotalInventoryInUnit` sums, over the lots of the given ingredient,
each lot quantity converted to the target unit, lots with no conversion path
contributing nothing; on the seeded measurements, lots of 2 cups and 500 ml
total `2 * 236.588 + 500` milliliters exactly, with or without an additional
countable lot that has no path to milliliters. -/
theorem inventory_aggregation :
    (∀ (ingredientId targetMeasurementId : String) (inventory : List InventoryItem)
        (measurements : List Measurement),
      getTotalInventoryInUnit ingredientId targetMeasurementId inventory measurements =
        ((inventory.filter (fun item => item.ingredientId == ingredientId)).map
          (fun item =>
            (convertMeasurement item.measurementId targetMeasurementId
              item.quantity measurements).getD 0)).sum) ∧
    getTotalInventoryInUnit "78" "9"
        [ { userId := "u", ingredientId := "78", measurementId := "1", quantity := 2 },
          { userId := "u", ingredientId := "78", measurementId := "9", quantity := 500 } ]
        defaultMeasurements = 2 * 236.588 + 500 ∧
    getTotalInventoryInUnit "78" "9"
        [ { userId := "u", ingredientId := "78", measurementId := "1", quantity := 2 },
          { userId := "u", ingredientId := "78", measurementId := "9", quantity := 500 },
          { userId := "u", ingredientId := "78", measurementId := "15", quantity := 7 } ]
        defaultMeasurements = 2 * 236.588 + 500 := by
  refine ⟨?_, ?_, ?_⟩
  · intro ingredientId targetMeasurementId inventory measurements
    unfold getTotalInventoryInUnit
    rw [foldl_convert_eq_add_sum, zero_add]
  · simp [getTotalInventoryInUnit, convertMeasurement, defaultMeasurements,
      List.filter_cons, List.foldl_cons, List.find?_cons]
  · simp [getTotalInventoryInUnit, convertMeasurement, defaultMeasurements,
      List.filter_cons, List.foldl_cons, List.find?_cons]

/-- C9: the sufficiency check reports `available` equal to the inventory total
in the required unit and `hasEnough` exactly when `available ≥ requiredQty`,
an exact comparison with no tolerance, so the boundary `available = requiredQty`
counts as enough. -/
theorem sufficiency_exact_boundary :
    (∀ (ingredientId requiredMeasurementId : String) (requiredQuantity : ℚ)
        (inventory : List InventoryItem) (measurements : List Measurement),
      (hasEnoughInventory ingredientId requiredMeasurementId requiredQuantity
          inventory measurements).available =
        getTotalInventoryInUnit ingredientId requiredMeasurementId inventory measurements ∧
      ((hasEnoughInventory ingredientId requiredMeasurementId requiredQuantity
          inventory measurements).hasEnough = true ↔
        getTotalInventoryInUnit ingredientId requiredMeasurementId inventory measurements ≥
          requiredQuantity)) ∧
    (∀ (ingredientId requiredMeasurementId : String) (requiredQuantity : ℚ)
        (inventory : List InventoryItem) (measurements : List Measurement),
      (hasEnoughInventory ingredientId requiredMeasurementId requiredQuantity
          inventory measurements).available = requiredQuantity →
      (hasEnoughInventory ingredientId requiredMeasurementId requiredQuantity
          inventory measurements).hasEnough = true) := by
  constructor
  · intro ingredientId requiredMeasurementId requiredQuantity inventory measurements
    exact ⟨rfl, by simp [hasEnoughInventory]⟩
  · intro ingredientId requiredMeasurementId requiredQuantity inventory measurements h
    have havail : getTotalInventoryInUnit ingredientId requiredMeasurementId
        inventory measurements = requiredQuantity := h
    simp [hasEnoughInventory, havail]

/-- Closed instance of `sufficiency_exact_boundary`: an inventory holding
exactly the 2 cups required is reported as enough. -/
theorem sufficiency_exact_boundary_witness :
    (hasEnoughInventory "78" "1" 2
        [ { userId := "u", ingredientId := "78", measurementId := "1", quantity := 2 } ]
        defaultMeasurements).hasEnough = true := by
  refine sufficiency_exact_boundary.2 "78" "1" 2 _ defaultMeasurements ?_
  simp [hasEnoughInventory, getTotalInventoryInUnit, convertMeasurement,
    List.filter_cons, List.foldl_cons]

/-- C2 counterexample: the source keeps a lot only when the new quantity is
strictly above `0.001`, so depleting a lot of 0.002 by 0.001 (new quantity
exactly the epsilon `1e-3`, hence not below it) still deletes the lot, while
the claim's partition at "below 1e-3" predicts it is kept. -/
theorem deduction_epsilon_boundary_counterexample :
    deductFromInventory "78" "1" 0.001
        [ { userId := "u", ingredientId := "78", measurementId := "1", quantity := 0.002 } ]
        [] "u" =
      ([], [ { measurementId := "1", quantity := 0.001 } ]) ∧
    ¬ ((0.002 : ℚ) - 0.001 < 0.001) := by
  constructor
  · simp [deductFromInventory, deductFinalState_eq, relevantLots, deductLoopStep,
      convertMeasurement, List.enum, List.enumFrom, List.filter_cons, List.foldl_cons,
      min_def]
    norm_num
  · norm_num

/-- C2 (amended): each processed lot is deducted by
`min(lot.quantity, remaining-in-lot-unit)`, so the new quantity is never
negative; the lot is deleted from the returned inventory exactly when the new
quantity is at or below the epsilon `1e-3` (the source keeps it only when
strictly above `0.001`), and is otherwise kept with the reduced quantity; no
lot marked for removal survives into the returned inventory; depleting a lot
to 0.0005 removes it and depleting to 0.01 keeps it. -/
theorem deduction_min_and_epsilon :
    (∀ (requiredMeasurementId : String) (measurements : List Measurement)
        (st : DeductState) (p : Nat × InventoryItem) (amt : ℚ),
      0 < st.remainingToDeduct →
      convertMeasurement requiredMeasurementId p.2.measurementId
          st.remainingToDeduct measurements = some amt →
      0 ≤ p.2.quantity - min p.2.quantity amt ∧
      (deductLoopStep requiredMeasurementId measurements st p).deducted =
        st.deducted ++
          [{ measurementId := p.2.measurementId, quantity := min p.2.quantity amt }] ∧
      (p.2.quantity - min p.2.quantity amt ≤ 0.001 →
        (deductLoopStep requiredMeasurementId measurements st p).inv =
          st.inv.set p.1 { p.2 with quantity := -1 }) ∧
      (0.001 < p.2.quantity - min p.2.quantity amt →
        (deductLoopStep requiredMeasurementId measurements st p).inv =
          st.inv.set p.1 { p.2 with quantity := p.2.quantity - min p.2.quantity amt })) ∧
    (∀ (ingredientId requiredMeasurementId : String) (requiredQuantity : ℚ)
        (inventory : List InventoryItem) (measurements : List Measurement) (userId : String),
      ∀ item ∈ (deductFromInventory ingredientId requiredMeasurementId requiredQuantity
          inventory measurements userId).1, item.quantity ≠ -1) ∧
    deductFromInventory "78" "1" 1
        [ { userId := "u", ingredientId := "78", measurementId := "1", quantity := 1.0005 } ]
        [] "u" =
      ([], [ { measurementId := "1", quantity := 1 } ]) ∧
    deductFromInventory "78" "1" 1
        [ { userId := "u", ingredientId := "78", measurementId := "1", quantity := 1.01 } ]
        [] "u" =
      ( [ { userId := "u", ingredientId := "78", measurementId := "1", quantity := 0.01 } ],
        [ { measurementId := "1", quantity := 1 } ] ) := by
  refine ⟨?_, ?_, ?_, ?_⟩
  · intro requiredMeasurementId measurements st p amt hr hconv
    have hr' : ¬ st.remainingToDeduct ≤ 0 := not_le.mpr hr
    refine ⟨sub_nonneg.mpr (min_le_left _ _), ?_, ?_, ?_⟩
    · unfold deductLoopStep
      rw [if_neg hr', hconv]
    · intro hle
      unfold deductLoopStep
      rw [if_neg hr', hconv]
      dsimp only
      rw [if_neg (not_lt.mpr hle)]
    · intro hlt
      unfold deductLoopStep
      rw [if_neg hr', hconv]
      dsimp only
      rw [if_pos hlt]
  · intro ingredientId requiredMeasurementId requiredQuantity inventory measurements userId
      item hmem
    have h := (List.mem_filter.mp hmem).2
    exact of_decide_eq_true h
  · simp [deductFromInventory, deductFinalState_eq, relevantLots, deductLoopStep,
      convertMeasurement, List.enum, List.enumFrom, List.filter_cons, List.foldl_cons,
      min_def]
    norm_num
  · simp [deductFromInventory, deductFinalState_eq, relevantLots, deductLoopStep,
      convertMeasurement, List.enum, List.enumFrom, List.filter_cons, List.foldl_cons,
      min_def]
    norm_num

/-- Closed instance of `deduction_min_and_epsilon`: one loop step on a lot of
1.0005 with 1 remaining in the same unit records a deduction of `min 1.0005 1`
and marks the lot (new quantity 0.0005, at or below the epsilon) for removal. -/
theorem deduction_min_and_epsilon_witness :
    (deductLoopStep "1" []
        { remainingToDeduct := 1,
          inv := [{ userId := "u", ingredientId := "78", measurementId := "1",
                    quantity := 1.0005 }],
          deducted := [] }
        (0, { userId := "u", ingredientId := "78", measurementId := "1",
              quantity := 1.0005 })).inv =
      [ { userId := "u", ingredientId := "78", measurementId := "1",
          quantity := (1.0005 : ℚ) } ].set 0
        { userId := "u", ingredientId := "78", measurementId := "1", quantity := -1 } := by
  have h := (deduction_min_and_epsilon.1 "1" []
    { remainingToDeduct := 1,
      inv := [{ userId := "u", ingredientId := "78", measurementId := "1",
                quantity := 1.0005 }],
      deducted := [] }
    (0, { userId := "u", ingredientId := "78", measurementId := "1", quantity := 1.0005 })
    1 (by norm_num) rfl).2.2.1
  apply h
  rw [min_def]
  norm_num

/-- Every candidate processed by the deduction loop is a lot of the requested
user and ingredient, recorded at its index in the input inventory. -/
theorem mem_sortedLots_spec (ingredientId requiredMeasurementId : String)
    (inventory : List InventoryItem) (userId : String) (p : Nat × InventoryItem)
    (h : p ∈ sortedLots ingredientId requiredMeasurementId inventory userId) :
    inventory[p.1]? = some p.2 ∧ p.2.userId = userId ∧ p.2.ingredientId = ingredientId := by
  have h1 : p ∈ relevantLots ingredientId inventory userId := by
    have := List.mem_mergeSort.mp h
    exact this
  have h2 := List.mem_filter.mp h1
  refine ⟨List.mem_enum_iff_getElem?.mp h2.1, ?_, ?_⟩
  · have := h2.2
    simp only [Bool.and_eq_true, beq_iff_eq] at this
    exact this.1
  · have := h2.2
    simp only [Bool.and_eq_true, beq_iff_eq] at this
    exact this.2

/-- A lot that no loop iteration may touch is still at its index after the
whole deduction fold. -/
theorem deduct_foldl_untouched (requiredMeasurementId : String)
    (measurements : List Measurement) (userId ingredientId : String)
    (inventory : List InventoryItem) (i : Nat) (lot : InventoryItem)
    (hcond : lot.userId ≠ userId ∨ lot.ingredientId ≠ ingredientId ∨
      ∀ q : ℚ, convertMeasurement requiredMeasurementId lot.measurementId q measurements = none) :
    ∀ (items : List (Nat × InventoryItem)) (st : DeductState),
      (∀ p ∈ items,
        inventory[p.1]? = some p.2 ∧ p.2.userId = userId ∧ p.2.ingredientId = ingredientId) →
      inventory[i]? = some lot →
      st.inv[i]? = some lot →
      (items.foldl (deductLoopStep requiredMeasurementId measurements) st).inv[i]? =
        some lot := by
  intro items
  induction items with
  | nil =>
    intro st _ _ hst
    simpa using hst
  | cons p t ih =>
    intro st hall hi hst
    rw [List.foldl_cons]
    refine ih _ (fun x hx => hall x (List.mem_cons_of_mem p hx)) hi ?_
    obtain ⟨hp, hpu, hpi⟩ := hall p (List.mem_cons_self p t)
    unfold deductLoopStep
    by_cases hrem : st.remainingToDeduct ≤ 0
    · rw [if_pos hrem]; exact hst
    · rw [if_neg hrem]
      by_cases hidx : p.1 = i
      · have hpl : p.2 = lot := by
          rw [hidx] at hp
          rw [hp] at hi
          exact Option.some.inj hi
        rcases hcond with h1 | h2 | h3
        · exact absurd (hpl ▸ hpu) h1
        · exact absurd (hpl ▸ hpi) h2
        · rw [hpl, h3 st.remainingToDeduct]
          exact hst
      · cases hconv : convertMeasurement requiredMeasurementId p.2.measurementId
            st.remainingToDeduct measurements with
        | none => exact hst
        | some amt =>
          dsimp only
          rw [List.getElem?_set_ne hidx]
          exact hst

/-- C3: on an inventory whose quantities are all non-negative, every lot that
the deduction never touches — its user or ingredient differs, the required
unit has no conversion path into its unit, or the remaining requirement was
already exhausted when it was considered — passes through `deductFromInventory`
unchanged: it is still at its index after the loop, it survives the final
filter, and a loop step with non-positive remaining requirement changes
nothing. -/
theorem untouched_lots_pass_through :
    (∀ (ingredientId requiredMeasurementId : String) (requiredQuantity : ℚ)
        (inventory : List InventoryItem) (measurements : List Measurement) (userId : String)
        (i : Nat) (lot : InventoryItem),
      inventory[i]? = some lot →
      (lot.userId ≠ userId ∨ lot.ingredientId ≠ ingredientId ∨
        ∀ q : ℚ, convertMeasurement requiredMeasurementId lot.measurementId q
          measurements = none) →
      (deductFinalState ingredientId requiredMeasurementId requiredQuantity
          inventory measurements userId).inv[i]? = some lot ∧
      (0 ≤ lot.quantity →
        lot ∈ (deductFromInventory ingredientId requiredMeasurementId requiredQuantity
          inventory measurements userId).1)) ∧
    (∀ (requiredMeasurementId : String) (measurements : List Measurement)
        (st : DeductState) (p : Nat × InventoryItem),
      st.remainingToDeduct ≤ 0 →
      deductLoopStep requiredMeasurementId measurements st p = st) := by
  constructor
  · intro ingredientId requiredMeasurementId requiredQuantity inventory measurements userId
      i lot hi hcond
    have hfinal : (deductFinalState ingredientId requiredMeasurementId requiredQuantity
        inventory measurements userId).inv[i]? = some lot := by
      unfold deductFinalState
      exact deduct_foldl_untouched requiredMeasurementId measurements userId ingredientId
        inventory i lot hcond _ _
        (fun p hp => mem_sortedLots_spec ingredientId requiredMeasurementId
          inventory userId p hp)
        hi hi
    refine ⟨hfinal, fun hq => ?_⟩
    have hmem : lot ∈ (deductFinalState ingredientId requiredMeasurementId requiredQuantity
        inventory measurements userId).inv := by
      exact List.getElem?_mem hfinal
    refine List.mem_filter.mpr ⟨hmem, ?_⟩
    refine decide_eq_true ?_
    intro hcontra
    rw [hcontra] at hq
    norm_num at hq
  · intro requiredMeasurementId measurements st p h
    unfold deductLoopStep
    rw [if_pos h]

/-- Closed instance of `untouched_lots_pass_through`: a convertible lot owned
by another user survives a deduction for user `"u"` unchanged. -/
theorem untouched_lots_pass_through_witness :
    { userId := "v", ingredientId := "78", measurementId := "1", quantity := 3 } ∈
      (deductFromInventory "78" "1" 5
        [ { userId := "v", ingredientId := "78", measurementId := "1", quantity := 3 } ]
        [] "u").1 :=
  (untouched_lots_pass_through.1 "78" "1" 5
    [ { userId := "v", ingredientId := "78", measurementId := "1", quantity := 3 } ]
    [] "u" 0 _ rfl (Or.inl (by decide))).2 (by norm_num)

/-- C4: `deductFromInventory` reports no failure.  A loop step whose
back-conversion to the required unit has no path depletes the lot and records
the ledger entry but leaves the remaining requirement unchanged; and on an
asymmetric graph (an edge `A → B` with no edge back) the call still returns an
updated inventory and ledger while the final loop state retains the whole
requirement unreported. -/
theorem silent_under_deduction :
    (∀ (requiredMeasurementId : String) (measurements : List Measurement)
        (st : DeductState) (p : Nat × InventoryItem) (amt : ℚ),
      0 < st.remainingToDeduct →
      convertMeasurement requiredMeasurementId p.2.measurementId
          st.remainingToDeduct measurements = some amt →
      convertMeasurement p.2.measurementId requiredMeasurementId
          (min p.2.quantity amt) measurements = none →
      (deductLoopStep requiredMeasurementId measurements st p).remainingToDeduct =
        st.remainingToDeduct ∧
      (deductLoopStep requiredMeasurementId measurements st p).deducted =
        st.deducted ++
          [{ measurementId := p.2.measurementId, quantity := min p.2.quantity amt }]) ∧
    deductFromInventory "78" "A" 3
        [ { userId := "u", ingredientId := "78", measurementId := "B", quantity := 10 } ]
        [ { id := "A", name := "unit a",
            conversions := [ { toMeasurementId := "B", factor := 2 } ] },
          { id := "B", name := "unit b", conversions := [] } ] "u" =
      ( [ { userId := "u", ingredientId := "78", measurementId := "B", quantity := 4 } ],
        [ { measurementId := "B", quantity := 6 } ] ) ∧
    (deductFinalState "78" "A" 3
        [ { userId := "u", ingredientId := "78", measurementId := "B", quantity := 10 } ]
        [ { id := "A", name := "unit a",
            conversions := [ { toMeasurementId := "B", factor := 2 } ] },
          { id := "B", name := "unit b", conversions := [] } ] "u").remainingToDeduct = 3 := by
  refine ⟨?_, ?_, ?_⟩
  · intro requiredMeasurementId measurements st p amt hr hconv hback
    have hr' : ¬ st.remainingToDeduct ≤ 0 := not_le.mpr hr
    constructor
    · unfold deductLoopStep
      rw [if_neg hr', hconv]
      dsimp only
      rw [hback]
    · unfold deductLoopStep
      rw [if_neg hr', hconv]
  · simp [deductFromInventory, deductFinalState_eq, relevantLots, deductLoopStep,
      convertMeasurement, List.enum, List.enumFrom, List.filter_cons, List.foldl_cons,
      List.find?_cons, min_def]
    norm_num
  · simp [deductFinalState_eq, relevantLots, deductLoopStep,
      convertMeasurement, List.enum, List.enumFrom, List.filter_cons, List.foldl_cons,
      List.find?_cons, min_def]
    norm_num

/-- Closed instance of `silent_under_deduction`: the loop step on the
`A → B`-only graph leaves the remaining requirement at 3. -/
theorem silent_under_deduction_witness :
    (deductLoopStep "A"
        [ { id := "A", name := "unit a",
            conversions := [ { toMeasurementId := "B", factor := 2 } ] },
          { id := "B", name := "unit b", conversions := [] } ]
        { remainingToDeduct := 3,
          inv := [{ userId := "u", ingredientId := "78", measurementId := "B",
                    quantity := 10 }],
          deducted := [] }
        (0, { userId := "u", ingredientId := "78", measurementId := "B",
              quantity := 10 })).remainingToDeduct = 3 := by
  refine (silent_under_deduction.1 "A" _ _ _ 6 (by norm_num) ?_ ?_).1
  · simp [convertMeasurement, List.find?_cons]
    norm_num
  · simp [convertMeasurement, List.find?_cons]

/-- C10: the sufficiency layer ignores lot ownership — reassigning every lot's
`userId` arbitrarily changes neither `getTotalInventoryInUnit` nor
`hasEnoughInventory` — while `deductFromInventory` selects only the requesting
user's lots; consequently an inventory holding only another user's convertible
lot is reported as sufficient, yet the deduction for the requesting user
returns that lot unchanged with an empty ledger and its final loop state still
carries the whole requirement. -/
theorem sufficiency_not_user_scoped :
    (∀ (ingredientId targetMeasurementId : String) (inventory : List InventoryItem)
        (measurements : List Measurement) (reassign : InventoryItem → String),
      getTotalInventoryInUnit ingredientId targetMeasurementId
          (inventory.map (fun l => { l with userId := reassign l })) measurements =
        getTotalInventoryInUnit ingredientId targetMeasurementId inventory measurements ∧
      hasEnoughInventory ingredientId targetMeasurementId 0
          (inventory.map (fun l => { l with userId := reassign l })) measurements =
        hasEnoughInventory ingredientId targetMeasurementId 0 inventory measurements) ∧
    hasEnoughInventory "78" "1" 3
        [ { userId := "alice", ingredientId := "78", measurementId := "1", quantity := 5 } ]
        [] =
      { hasEnough := true, available := 5 } ∧
    deductFromInventory "78" "1" 3
        [ { userId := "alice", ingredientId := "78", measurementId := "1", quantity := 5 } ]
        [] "bob" =
      ( [ { userId := "alice", ingredientId := "78", measurementId := "1", quantity := 5 } ],
        [] ) ∧
    (deductFinalState "78" "1" 3
        [ { userId := "alice", ingredientId := "78", measurementId := "1", quantity := 5 } ]
        [] "bob").remainingToDeduct = 3 := by
  have htotal : ∀ (ingredientId targetMeasurementId : String) (inventory : List InventoryItem)
      (measurements : List Measurement) (reassign : InventoryItem → String),
      getTotalInventoryInUnit ingredientId targetMeasurementId
          (inventory.map (fun l => { l with userId := reassign l })) measurements =
        getTotalInventoryInUnit ingredientId targetMeasurementId inventory measurements := by
    intro ingredientId targetMeasurementId inventory measurements reassign
    unfold getTotalInventoryInUnit
    rw [foldl_convert_eq_add_sum, foldl_convert_eq_add_sum]
    congr 1
    induction inventory with
    | nil => rfl
    | cons a l ih =>
      by_cases h : a.ingredientId = ingredientId
      · simp only [List.map_cons, List.filter_cons]
        simp [h, ih]
      · simp only [List.map_cons, List.filter_cons]
        simp [h, ih]
  refine ⟨?_, ?_, ?_, ?_⟩
  · intro ingredientId targetMeasurementId inventory measurements reassign
    refine ⟨htotal _ _ _ _ _, ?_⟩
    unfold hasEnoughInventory
    rw [htotal]
  · simp [hasEnoughInventory, getTotalInventoryInUnit, convertMeasurement,
      List.filter_cons, List.foldl_cons]
    norm_num
  · simp [deductFromInventory, deductFinalState_eq, relevantLots, deductLoopStep,
      convertMeasurement, List.enum, List.enumFrom, List.filter_cons, List.foldl_cons]
    norm_num
  · simp [deductFinalState_eq, relevantLots, deductLoopStep,
      convertMeasurement, List.enum, List.enumFrom, List.filter_cons, List.foldl_cons]

/-! ### The application layer (`App.tsx`)

The cooking-session handlers of the root component are embedded as functions
on the relevant slice of `AppData` (`recipes`, `inventory`, `measurements`,
`cookingSessions`, `currentUserId`; the other fields of `AppData` are never
read or written by these handlers).  React's `setData` is modelled by
returning the new state. -/

/-- Embeds the `status` field of `CookingSession` from `types.ts`. -/
inductive SessionStatus where
  | active
  | completed
  | cancelled
deriving DecidableEq

/-- Embeds `CookingSession` from `types.ts`. -/
structure CookingSession where
  id : String
  recipeId : String
  userId : String
  ingredientsChecked : List Nat
  stepsChecked : List Nat
  servingSize : ℚ
  status : SessionStatus
deriving DecidableEq

/-- Embeds `RecipeIngredient` from `types.ts`. -/
structure RecipeIngredient where
  ingredientId : String
  quantity : ℚ
  measurementId : String
deriving DecidableEq

/-- Embeds `Recipe` from `types.ts`. -/
structure Recipe where
  id : String
  userId : String
  name : String
  description : String
  servings : ℚ
  ingredients : List RecipeIngredient
  instructions : List String
  viewCount : Nat
  cookCount : Nat
  createdAt : Int
deriving DecidableEq

/-- The slice of `AppData` read and written by the cooking-session handlers.
`currentUserId` is `string | null` in the source, hence `Option String`. -/
structure AppState where
  recipes : List Recipe
  inventory : List InventoryItem
  measurements : List Measurement
  cookingSessions : List CookingSession
  currentUserId : Option String
deriving DecidableEq

/-- Embeds the session predicate used by `handleCompleteCooking`,
`handleCancelCooking` and the `cookingSession` selector in `App.tsx`:
`s.recipeId === selectedRecipeId && s.userId === data.currentUserId &&
s.status === 'active'` (both right-hand sides may be `null`). -/
def isActiveFor (selectedRecipeId currentUserId : Option String)
    (s : CookingSession) : Bool :=
  (some s.recipeId == selectedRecipeId) && (some s.userId == currentUserId) &&
    (s.status == SessionStatus.active)

/-- Embeds `handleStartCooking` from `App.tsx`.  `newId` stands for the
`generateId()` result; the non-null assertion `data.currentUserId!` is
modelled by `Option.getD ""` (the handler is only reachable from the UI while
a user is logged in). -/
def handleStartCooking (recipeId newId : String) (st : AppState) : AppState :=
  match st.recipes.find? (fun r => r.id == recipeId) with
  | none => st
  | some recipe =>
    match st.cookingSessions.find? (fun s =>
        (s.recipeId == recipeId) && (some s.userId == st.currentUserId) &&
          (s.status == SessionStatus.active)) with
    | some _ => st
    | none =>
      { st with cookingSessions := st.cookingSessions ++
          [ { id := newId, recipeId := recipeId, userId := st.currentUserId.getD "",
              ingredientsChecked := [], stepsChecked := [],
              servingSize := recipe.servings, status := SessionStatus.active } ] }

/-- Embeds `handleUpdateCookingSession` from `App.tsx`: replaces the session
with the matching id by the given record. -/
def handleUpdateCookingSession (session : CookingSession) (st : AppState) : AppState :=
  { st with cookingSessions := st.cookingSessions.map (fun s =>
      if s.id == session.id then session else s) }

/-- Embeds the ingredient loop of `handleCompleteCooking`: each ingredient's
deduction runs on the inventory returned by the previous one. -/
def inventoryAfterCooking (recipe : Recipe) (scalingFactor : ℚ)
    (measurements : List Measurement) (userId : String)
    (inventory : List InventoryItem) : List InventoryItem :=
  recipe.ingredients.foldl
    (fun inv ing =>
      (deductFromInventory ing.ingredientId ing.measurementId
        (ing.quantity * scalingFactor) inv measurements userId).1)
    inventory

/-- Embeds `handleCompleteCooking` from `App.tsx` (the view-navigation side
effect is outside the data state).  The handler acts only when an active
session for `(selectedRecipeId, currentUserId)` exists, the recipe is found
and a user is logged in. -/
def handleCompleteCooking (selectedRecipeId : Option String) (st : AppState) : AppState :=
  match st.cookingSessions.find? (isActiveFor selectedRecipeId st.currentUserId) with
  | none => st
  | some session =>
    match st.recipes.find? (fun r => some r.id == selectedRecipeId), st.currentUserId with
    | some recipe, some uid =>
      let scalingFactor := session.servingSize / recipe.servings
      { st with
        inventory := inventoryAfterCooking recipe scalingFactor st.measurements uid
          st.inventory
        cookingSessions := st.cookingSessions.map (fun s =>
          if s.id == session.id then { s with status := SessionStatus.completed } else s)
        recipes := st.recipes.map (fun r =>
          if some r.id == selectedRecipeId then { r with cookCount := r.cookCount + 1 }
          else r) }
    | _, _ => st

/-- Embeds `handleCancelCooking` from `App.tsx`: marks the active session for
the pair as cancelled; no inventory or recipe change. -/
def handleCancelCooking (selectedRecipeId : Option String) (st : AppState) : AppState :=
  match st.cookingSessions.find? (isActiveFor selectedRecipeId st.currentUserId) with
  | none => st
  | some session =>
    { st with cookingSessions := st.cookingSessions.map (fun s =>
        if s.id == session.id then { s with status := SessionStatus.cancelled } else s) }

/-- Tests whether a session is an active session of the given (recipe, user)
pair. -/
def matchesActive (recipeId userId : String) (s : CookingSession) : Bool :=
  (s.recipeId == recipeId) && (s.userId == userId) && (s.status == SessionStatus.active)

/-- Number of active sessions a session list holds for one (recipe, user)
pair. -/
def activeCount (recipeId userId : String) (sessions : List CookingSession) : Nat :=
  (sessions.filter (matchesActive recipeId userId)).length

/-- States reachable through the cooking-session operations, starting from any
state with no sessions (such as the default seed data).  The update step takes
the record shape produced by `CookMode` (`{...session, servingSize,
ingredientsChecked, stepsChecked}` for a session of the store); the start step
requires a logged-in user (the handler is only rendered then) and a fresh
generated id. -/
inductive Reachable : AppState → Prop where
  | init (st : AppState) (h : st.cookingSessions = []) : Reachable st
  | start (st : AppState) (recipeId newId : String)
      (hlogin : st.currentUserId.isSome = true)
      (hfresh : ∀ s ∈ st.cookingSessions, s.id ≠ newId)
      (h : Reachable st) : Reachable (handleStartCooking recipeId newId st)
  | update (st : AppState) (old : CookingSession) (v : ℚ) (a b : List Nat)
      (hold : old ∈ st.cookingSessions) (h : Reachable st) :
      Reachable (handleUpdateCookingSession
        { old with servingSize := v, ingredientsChecked := a, stepsChecked := b } st)
  | complete (st : AppState) (selectedRecipeId : Option String) (h : Reachable st) :
      Reachable (handleCompleteCooking selectedRecipeId st)
  | cancel (st : AppState) (selectedRecipeId : Option String) (h : Reachable st) :
      Reachable (handleCancelCooking selectedRecipeId st)

/-- The invariant the session state machine maintains: at most one active
session per (recipe, user) pair, and pairwise distinct session ids. -/
def SessionInv (st : AppState) : Prop :=
  (∀ recipeId userId, activeCount recipeId userId st.cookingSessions ≤ 1) ∧
  (st.cookingSessions.map (fun s => s.id)).Nodup

/-- Mapping a function that either fixes a session or makes it non-active never
increases the active count of any pair. -/
theorem activeCount_map_le (recipeId userId : String) (f : CookingSession → CookingSession)
    (hf : ∀ s, f s = s ∨ (f s).status ≠ SessionStatus.active) :
    ∀ l : List CookingSession,
      activeCount recipeId userId (l.map f) ≤ activeCount recipeId userId l := by
  intro l
  induction l with
  | nil => exact Nat.le_refl 0
  | cons a t ih =>
    rw [List.map_cons]
    unfold activeCount
    rw [List.filter_cons, List.filter_cons]
    rcases hf a with h | h
    · rw [h]
      cases hc : matchesActive recipeId userId a
      · simpa [hc] using ih
      · simpa [hc] using Nat.succ_le_succ ih
    · have hfa : matchesActive recipeId userId (f a) = false := by
        unfold matchesActive
        have : ((f a).status == SessionStatus.active) = false := by
          simpa using h
        simp [this]
      rw [hfa]
      cases hc : matchesActive recipeId userId a
      · simpa [hc] using ih
      · simp only [hc, cond_true, cond_false, List.length_cons]
        exact Nat.le_succ_of_le ih

/-- Mapping a function that preserves the active-match status of every element
preserves the active count. -/
theorem activeCount_map_eq (recipeId userId : String) (f : CookingSession → CookingSession) :
    ∀ l : List CookingSession,
      (∀ s ∈ l, matchesActive recipeId userId (f s) = matchesActive recipeId userId s) →
      activeCount recipeId userId (l.map f) = activeCount recipeId userId l := by
  intro l
  induction l with
  | nil => intro; rfl
  | cons a t ih =>
    intro hf
    rw [List.map_cons]
    unfold activeCount
    rw [List.filter_cons, List.filter_cons, hf a (List.mem_cons_self a t)]
    have ih' := ih (fun s hs => hf s (List.mem_cons_of_mem a hs))
    unfold activeCount at ih'
    cases hc : matchesActive recipeId userId a
    · simpa [hc] using ih'
    · simpa [hc] using ih'

/-- The active count of a concatenation is the sum of the parts. -/
theorem activeCount_append (recipeId userId : String) (l1 l2 : List CookingSession) :
    activeCount recipeId userId (l1 ++ l2) =
      activeCount recipeId userId l1 + activeCount recipeId userId l2 := by
  unfold activeCount
  rw [List.filter_append, List.length_append]

/-- Mapping a function that preserves ids leaves the id list unchanged. -/
theorem map_id_of_id_preserved (f : CookingSession → CookingSession)
    (hf : ∀ s, (f s).id = s.id) :
    ∀ l : List CookingSession, (l.map f).map (fun s => s.id) = l.map (fun s => s.id) := by
  intro l
  induction l with
  | nil => rfl
  | cons a t ih => simp [hf a, ih]

/-- `handleStartCooking` preserves the session invariant: when an active
session for the pair already exists nothing changes, and otherwise the new
session is the only active one for its pair. -/
theorem sessionInv_start (st : AppState) (recipeId newId : String)
    (hlogin : st.currentUserId.isSome = true)
    (hfresh : ∀ s ∈ st.cookingSessions, s.id ≠ newId)
    (hInv : SessionInv st) : SessionInv (handleStartCooking recipeId newId st) := by
  obtain ⟨uid, huid⟩ := Option.isSome_iff_exists.mp hlogin
  unfold handleStartCooking
  cases hrec : st.recipes.find? (fun r => r.id == recipeId) with
  | none => exact hInv
  | some recipe =>
    cases hfind : st.cookingSessions.find? (fun s =>
        (s.recipeId == recipeId) && (some s.userId == st.currentUserId) &&
          (s.status == SessionStatus.active)) with
    | some s => exact hInv
    | none =>
      have hnone := List.find?_eq_none.mp hfind
      constructor
      · intro rid u
        dsimp only
        rw [activeCount_append]
        by_cases hmatch : matchesActive rid u
            { id := newId, recipeId := recipeId, userId := st.currentUserId.getD "",
              ingredientsChecked := [], stepsChecked := [],
              servingSize := recipe.servings, status := SessionStatus.active } = true
        · have hc1 : activeCount rid u st.cookingSessions = 0 := by
            unfold activeCount
            rw [List.length_eq_zero, List.filter_eq_nil_iff]
            intro s hs hms
            apply hnone s hs
            unfold matchesActive at hmatch hms
            simp only [Bool.and_eq_true, beq_iff_eq] at hmatch hms
            simp only [Bool.and_eq_true, beq_iff_eq]
            refine ⟨⟨?_, ?_⟩, ?_⟩
            · rw [hms.1.1, ← hmatch.1.1]
            · rw [huid]
              have : s.userId = u := hms.1.2
              have h2 : st.currentUserId.getD "" = u := hmatch.1.2
              rw [huid] at h2
              simp only [Option.getD_some] at h2
              rw [this, h2]
            · exact hms.2
          have hc2 : activeCount rid u
              [ { id := newId, recipeId := recipeId,
                  userId := st.currentUserId.getD "",
                  ingredientsChecked := [], stepsChecked := [],
                  servingSize := recipe.servings, status := SessionStatus.active } ] ≤ 1 := by
            unfold activeCount
            exact Nat.le_trans (List.length_filter_le _ _) (Nat.le_refl 1)
          omega
        · have hc2 : activeCount rid u
              [ { id := newId, recipeId := recipeId,
                  userId := st.currentUserId.getD "",
                  ingredientsChecked := [], stepsChecked := [],
                  servingSize := recipe.servings, status := SessionStatus.active } ] = 0 := by
            unfold activeCount
            rw [List.length_eq_zero, List.filter_eq_nil_iff]
            intro s hs
            rcases List.mem_singleton.mp hs with rfl
            simpa using hmatch
          rw [hc2]
          have := hInv.1 rid u
          omega
      · dsimp only
        rw [List.map_append]
        rw [List.nodup_append]
        refine ⟨hInv.2, List.nodup_singleton _, ?_⟩
        intro x hx hy
        simp only [List.map_cons, List.map_nil, List.mem_singleton] at hy
        obtain ⟨s, hs, rfl⟩ := List.mem_map.mp hx
        exact hfresh s hs hy

/-- `handleCompleteCooking` preserves the session invariant: a session's
status only moves away from `active` and ids are untouched. -/
theorem sessionInv_complete (st : AppState) (selectedRecipeId : Option String)
    (hInv : SessionInv st) : SessionInv (handleCompleteCooking selectedRecipeId st) := by
  unfold handleCompleteCooking
  cases hfind : st.cookingSessions.find? (isActiveFor selectedRecipeId st.currentUserId) with
  | none => exact hInv
  | some session =>
    cases hrec : st.recipes.find? (fun r => some r.id == selectedRecipeId) with
    | none => exact hInv
    | some recipe =>
      cases huid : st.currentUserId with
      | none => exact hInv
      | some uid =>
        constructor
        · intro rid u
          dsimp only
          refine Nat.le_trans (activeCount_map_le rid u _ ?_ st.cookingSessions)
            (hInv.1 rid u)
          intro s
          by_cases h : (s.id == session.id) = true
          · right
            simp [h]
          · left
            simp [h]
        · dsimp only
          rw [map_id_of_id_preserved]
          · exact hInv.2
          · intro s
            by_cases h : (s.id == session.id) = true
            · simp [h]
            · simp [h]

/-- `handleCancelCooking` preserves the session invariant. -/
theorem sessionInv_cancel (st : AppState) (selectedRecipeId : Option String)
    (hInv : SessionInv st) : SessionInv (handleCancelCooking selectedRecipeId st) := by
  unfold handleCancelCooking
  cases hfind : st.cookingSessions.find? (isActiveFor selectedRecipeId st.currentUserId) with
  | none => exact hInv
  | some session =>
    constructor
    · intro rid u
      dsimp only
      refine Nat.le_trans (activeCount_map_le rid u _ ?_ st.cookingSessions) (hInv.1 rid u)
      intro s
      by_cases h : (s.id == session.id) = true
      · right
        simp [h]
      · left
        simp [h]
    · dsimp only
      rw [map_id_of_id_preserved]
      · exact hInv.2
      · intro s
        by_cases h : (s.id == session.id) = true
        · simp [h]
        · simp [h]

/-- `handleUpdateCookingSession` with the record shape sent by `CookMode`
preserves the session invariant: the replaced session keeps its id, pair and
status. -/
theorem sessionInv_update (st : AppState) (old : CookingSession) (v : ℚ)
    (a b : List Nat) (hold : old ∈ st.cookingSessions) (hInv : SessionInv st) :
    SessionInv (handleUpdateCookingSession
      { old with servingSize := v, ingredientsChecked := a, stepsChecked := b } st) := by
  unfold handleUpdateCookingSession
  have hid : ∀ s : CookingSession,
      ((if (s.id == old.id) = true then
        { old with servingSize := v, ingredientsChecked := a, stepsChecked := b }
      else s) : CookingSession).id = s.id := by
    intro s
    by_cases h : (s.id == old.id) = true
    · simp [h]
      exact (beq_iff_eq.mp h).symm
    · simp [h]
  constructor
  · intro rid u
    dsimp only
    rw [activeCount_map_eq rid u _ st.cookingSessions]
    · exact hInv.1 rid u
    · intro s hs
      by_cases h : (s.id == old.id) = true
      · have hs_old : s = old := by
          have hinj := List.inj_on_of_nodup_map hInv.2
          exact hinj hs hold (beq_iff_eq.mp h)
        rw [hs_old]
        simp [matchesActive]
      · simp [h]
  · dsimp only
    rw [map_id_of_id_preserved _ hid]
    exact hInv.2

/-- Every state reachable through the session operations satisfies the
invariant. -/
theorem sessionInv_reachable : ∀ st : AppState, Reachable st → SessionInv st := by
  intro st h
  induction h with
  | init st h =>
    constructor
    · intro rid u
      rw [h]
      exact Nat.le_of_lt Nat.one_pos
    · rw [h]
      exact List.nodup_nil
  | start st recipeId newId hlogin hfresh h ih =>
    exact sessionInv_start st recipeId newId hlogin hfresh ih
  | update st old v a b hold h ih => exact sessionInv_update st old v a b hold ih
  | complete st sel h ih => exact sessionInv_complete st sel ih
  | cancel st sel h ih => exact sessionInv_cancel st sel ih

/-- Members of a list of length at most one coincide. -/
theorem mem_eq_of_length_le_one {α : Type _} {l : List α} (h : l.length ≤ 1)
    {a b : α} (ha : a ∈ l) (hb : b ∈ l) : a = b := by
  cases l with
  | nil => cases ha
  | cons x t =>
    cases t with
    | nil =>
      rw [List.mem_singleton.mp ha, List.mem_singleton.mp hb]
    | cons y u => simp at h

/-- Bumping `cookCount` on the recipes matched by the selector adds the number
of matched recipes to the total cook count. -/
theorem sum_cookCount_bump (selectedRecipeId : Option String) :
    ∀ l : List Recipe,
      ((l.map (fun r =>
        if (some r.id == selectedRecipeId) = true then
          { r with cookCount := r.cookCount + 1 }
        else r)).map (fun r => r.cookCount)).sum =
      (l.map (fun r => r.cookCount)).sum +
        (l.filter (fun r => some r.id == selectedRecipeId)).length := by
  intro l
  induction l with
  | nil => rfl
  | cons a t ih =>
    simp only [List.map_cons, List.sum_cons, List.filter_cons]
    by_cases h : (some a.id == selectedRecipeId) = true
    · simp only [h, if_true, cond_true, List.length_cons]
      rw [ih]
      omega
    · simp only [h, if_false, Bool.false_eq_true, cond_false]
      rw [ih]
      omega

/-- C6: starting cooking while an active session for the (recipe, user) pair
exists returns the state unchanged — no new session object, checklists and
serving size preserved — and every state reachable through
start/update/complete/cancel has at most one active session per pair. -/
theorem session_singleton :
    (∀ (st : AppState) (recipeId newId : String),
      (∃ s, s ∈ st.cookingSessions ∧ s.recipeId = recipeId ∧
        some s.userId = st.currentUserId ∧ s.status = SessionStatus.active) →
      handleStartCooking recipeId newId st = st) ∧
    (∀ st : AppState, Reachable st →
      ∀ recipeId userId, activeCount recipeId userId st.cookingSessions ≤ 1) := by
  constructor
  · rintro st recipeId newId ⟨s, hs, h1, h2, h3⟩
    unfold handleStartCooking
    cases hrec : st.recipes.find? (fun r => r.id == recipeId) with
    | none => rfl
    | some recipe =>
      cases hfind : st.cookingSessions.find? (fun x =>
          (x.recipeId == recipeId) && (some x.userId == st.currentUserId) &&
            (x.status == SessionStatus.active)) with
      | some _ => rfl
      | none =>
        exfalso
        apply List.find?_eq_none.mp hfind s hs
        simp [h1, h2, h3]
  · intro st h recipeId userId
    exact (sessionInv_reachable st h).1 recipeId userId

/-- A sample recipe: 2 cups of flour at a baseline of 4 servings, cooked 8
times so far (the end-to-end scenario of the specification). -/
def demoRecipe : Recipe where
  id := "r1"
  userId := "u"
  name := "Bread"
  description := ""
  servings := 4
  ingredients := [ { ingredientId := "78", quantity := 2, measurementId := "1" } ]
  instructions := []
  viewCount := 0
  cookCount := 8
  createdAt := 0

/-- A sample active session for `demoRecipe`, scaled to 2 servings. -/
def demoSession : CookingSession where
  id := "s1"
  recipeId := "r1"
  userId := "u"
  ingredientsChecked := [0]
  stepsChecked := []
  servingSize := 2
  status := SessionStatus.active

/-- A sample application state: `demoRecipe`, one 1-cup lot, `demoSession`
active, user `"u"` logged in. -/
def demoState : AppState where
  recipes := [demoRecipe]
  inventory := [ { userId := "u", ingredientId := "78", measurementId := "1",
                   quantity := 1 } ]
  measurements := []
  cookingSessions := [demoSession]
  currentUserId := some "u"

/-- Closed instance of `session_singleton`: a second start-cooking call for a
pair with an active session changes nothing, and a sessionless state satisfies
the bound. -/
theorem session_singleton_witness :
    handleStartCooking "r1" "n1" demoState = demoState ∧
    activeCount "r1" "u"
      ({ recipes := [], inventory := [], measurements := [], cookingSessions := [],
         currentUserId := none } : AppState).cookingSessions ≤ 1 := by
  constructor
  · exact session_singleton.1 _ "r1" "n1" ⟨demoSession, List.mem_cons_self _ _, rfl, rfl, rfl⟩
  · exact session_singleton.2 _ (Reachable.init _ rfl) "r1" "u"

/-- C5: completing while an active session for the selected pair exists scales
by `session.servingSize / recipe.servings`, deducts every recipe ingredient
sequentially through the deduction engine (each step on the previous step's
inventory), completes the found session, and raises the total cook count by
the number of recipes carrying the selected id (exactly one bump per stored
recipe with that id); when the pair has at most one active session, none is
left active afterwards; and without an active session both complete and
cancel leave the state untouched. -/
theorem complete_cooking_effects :
    (∀ (st : AppState) (selectedRecipeId : Option String) (session : CookingSession)
        (recipe : Recipe) (uid : String),
      st.cookingSessions.find? (isActiveFor selectedRecipeId st.currentUserId) =
        some session →
      st.recipes.find? (fun r => some r.id == selectedRecipeId) = some recipe →
      st.currentUserId = some uid →
      (handleCompleteCooking selectedRecipeId st).inventory =
        inventoryAfterCooking recipe (session.servingSize / recipe.servings)
          st.measurements uid st.inventory ∧
      (handleCompleteCooking selectedRecipeId st).cookingSessions =
        st.cookingSessions.map (fun s =>
          if s.id == session.id then { s with status := SessionStatus.completed } else s) ∧
      { session with status := SessionStatus.completed } ∈
        (handleCompleteCooking selectedRecipeId st).cookingSessions ∧
      (handleCompleteCooking selectedRecipeId st).recipes =
        st.recipes.map (fun r =>
          if some r.id == selectedRecipeId then { r with cookCount := r.cookCount + 1 }
          else r) ∧
      ((handleCompleteCooking selectedRecipeId st).recipes.map
          (fun r => r.cookCount)).sum =
        (st.recipes.map (fun r => r.cookCount)).sum +
          (st.recipes.filter (fun r => some r.id == selectedRecipeId)).length ∧
      (activeCount session.recipeId session.userId st.cookingSessions ≤ 1 →
        ∀ s ∈ (handleCompleteCooking selectedRecipeId st).cookingSessions,
          isActiveFor selectedRecipeId st.currentUserId s = false)) ∧
    (∀ (st : AppState) (selectedRecipeId : Option String),
      st.cookingSessions.find? (isActiveFor selectedRecipeId st.currentUserId) = none →
      handleCompleteCooking selectedRecipeId st = st ∧
      handleCancelCooking selectedRecipeId st = st) := by
  constructor
  · intro st selectedRecipeId session recipe uid hsess hrec huid
    have hsmem : session ∈ st.cookingSessions := List.mem_of_find?_eq_some hsess
    have hsact : isActiveFor selectedRecipeId st.currentUserId session = true :=
      List.find?_some hsess
    have hres : handleCompleteCooking selectedRecipeId st =
        { st with
          inventory := inventoryAfterCooking recipe
            (session.servingSize / recipe.servings) st.measurements uid st.inventory
          cookingSessions := st.cookingSessions.map (fun s =>
            if s.id == session.id then { s with status := SessionStatus.completed }
            else s)
          recipes := st.recipes.map (fun r =>
            if some r.id == selectedRecipeId then { r with cookCount := r.cookCount + 1 }
            else r) } := by
      unfold handleCompleteCooking
      rw [hsess, hrec, huid]
    rw [hres]
    refine ⟨rfl, rfl, ?_, rfl, ?_, ?_⟩
    · refine List.mem_map.mpr ⟨session, hsmem, ?_⟩
      simp
    · exact sum_cookCount_bump selectedRecipeId st.recipes
    · intro hcount s hs
      obtain ⟨s0, hs0, rfl⟩ := List.mem_map.mp hs
      unfold isActiveFor at hsact
      simp only [Bool.and_eq_true, beq_iff_eq] at hsact
      by_cases hid : (s0.id == session.id) = true
      · simp only [hid, if_true]
        unfold isActiveFor
        simp
      · simp only [hid, Bool.false_eq_true, if_false]
        by_contra hact
        rw [Bool.not_eq_false] at hact
        unfold isActiveFor at hact
        simp only [Bool.and_eq_true, beq_iff_eq] at hact
        have hm0 : matchesActive session.recipeId session.userId s0 = true := by
          unfold matchesActive
          simp only [Bool.and_eq_true, beq_iff_eq]
          refine ⟨⟨?_, ?_⟩, by simp [hact.2]⟩
          · have := hact.1.1.trans hsact.1.1.symm
            exact Option.some.inj this
          · have := hact.1.2.trans hsact.1.2.symm
            exact Option.some.inj this
        have hmsess : matchesActive session.recipeId session.userId session = true := by
          unfold matchesActive
          simp [hsact.2]
        have heq : s0 = session := by
          refine mem_eq_of_length_le_one hcount ?_ ?_
          · exact List.mem_filter.mpr ⟨hs0, hm0⟩
          · exact List.mem_filter.mpr ⟨hsmem, hmsess⟩
        rw [heq] at hid
        simp at hid
  · intro st selectedRecipeId hnone
    constructor
    · unfold handleCompleteCooking
      rw [hnone]
    · unfold handleCancelCooking
      rw [hnone]

/-- Closed instance of `complete_cooking_effects`, the end-to-end scenario: a
recipe needing 2 cups at 4 servings, cooked at serving size 2 (factor 0.5,
so 1 cup required) against a single 1-cup lot, empties the inventory and
completes the session. -/
theorem complete_cooking_effects_witness :
    (handleCompleteCooking (some "r1") demoState).inventory = [] ∧
    (handleCompleteCooking (some "r1") demoState).cookingSessions =
      [ { demoSession with status := SessionStatus.completed } ] := by
  have h := complete_cooking_effects.1 demoState (some "r1") demoSession demoRecipe "u"
    rfl rfl rfl
  constructor
  · rw [h.1]
    simp [inventoryAfterCooking, demoRecipe, demoSession, demoState, List.foldl_cons,
      deductFromInventory, deductFinalState_eq, relevantLots, deductLoopStep,
      convertMeasurement, List.enum, List.enumFrom, List.filter_cons, min_def]
    norm_num
  · rw [h.2.1]
    simp [demoState, demoSession]

end Cucina
